import Mathlib

/-! Verification of the natural-language specification of the Black Magic
Debug ARM Cortex-A target driver (src/cortexa.c) against a shallow Lean
embedding of its code.  Machine integers are modelled as `Nat`, with 32-bit
behaviour made explicit where the C code relies on it (bit masks written out,
wrap-around subtraction as addition of `2 ^ 32 - k` followed by `% 2 ^ 32`).
The hardware environment (APB register reads, the SRST line, halt-wait
results) is passed in as explicit oracle functions, and the driver's
externally visible actions (APB writes, DCC reads) are returned as explicit
result state or event logs. -/

namespace Cortexa

/-! Register indices and bit constants, transcribed from the `#define` block
of cortexa.c. -/

def DBGDSCR_EXTDCCMODE_STALL : Nat := 1 <<< 20
def DBGDSCR_EXTDCCMODE_FAST : Nat := 2 <<< 20
def DBGDSCR_EXTDCCMODE_MASK : Nat := 3 <<< 20
def DBGDSCR_HDBGEN : Nat := 1 <<< 14
def DBGDSCR_ITREN : Nat := 1 <<< 13
def DBGDSCR_SDABORT_L : Nat := 1 <<< 6
def DBGDRCR_CSE : Nat := 1 <<< 2
def DBGDRCR_HRQ : Nat := 1
def DBGBCR_BAS_ANY : Nat := 0xf <<< 5
def DBGBCR_BAS_LOW_HW : Nat := 0x3 <<< 5
def DBGBCR_BAS_HIGH_HW : Nat := 0xc <<< 5
def DBGBCR_EN : Nat := 1
def CPSR_THUMB : Nat := 1 <<< 5

/-- Instruction encoding helper `CPREG(coproc, opc1, rt, crn, crm, opc2)`. -/
def CPREG (coproc opc1 rt crn crm opc2 : Nat) : Nat :=
  (opc1 <<< 21) ||| (crn <<< 16) ||| (rt <<< 12) ||| (coproc <<< 8) ||| (opc2 <<< 5) ||| crm

def MCR : Nat := 0xee000010
def MRC : Nat := 0xee100010
def DBGDTRRXint : Nat := CPREG 14 0 0 0 5 0
def DBGDTRTXint : Nat := CPREG 14 0 0 0 5 0

/-- The register cache of `struct cortexa_priv`: sixteen 32-bit general
registers, CPSR, FPSCR and sixteen 64-bit VFP doubles. -/
structure RegCache where
  r : Fin 16 → Nat
  cpsr : Nat
  fpscr : Nat
  d : Fin 16 → Nat

/-- Driver-visible state: the fields of `struct cortexa_priv` that the
claims are about, together with the target's DBGBVR/DBGBCR debug registers
(modelled as unbounded index maps; only indices below `hw_breakpoint_max`
are ever touched). -/
structure CortexaState where
  reg_cache : RegCache
  hw_breakpoint_max : Nat
  hw_breakpoint : Nat → Nat
  bpc0 : Nat
  mmu_fault : Bool
  dbgbvr : Nat → Nat
  dbgbcr : Nat → Nat

/-! ## Breakpoint manager -/

/-- `bp_bas` from cortexa.c: BAS field for address/length. -/
def bp_bas (addr : Nat) (len : Nat) : Nat :=
  if len = 4 then DBGBCR_BAS_ANY
  else if addr &&& 2 ≠ 0 then DBGBCR_BAS_HIGH_HW
  else DBGBCR_BAS_LOW_HW

/-- First index `j` with `i ≤ j < i + fuel` satisfying `p`, scanning upward:
the shape of the linear scans in `cortexa_set_hw_bp`/`cortexa_clear_hw_bp`. -/
def findIdxFrom (p : Nat → Bool) (i : Nat) : Nat → Option Nat
  | 0 => none
  | fuel + 1 => if p i then some i else findIdxFrom p (i + 1) fuel

/-- `cortexa_set_hw_bp`: scan for the first free slot (stored entry with low
bit zero); if none return `-1`, otherwise record `addr | 1`, write
`DBGBVR[i] = addr & ~3` and `DBGBCR[i] = bp_bas(addr,len) | DBGBCR_EN`,
mirroring the control value into `bpc0` when `i = 0`, and return `0`. -/
def cortexa_set_hw_bp (s : CortexaState) (addr len : Nat) : CortexaState × Int :=
  match findIdxFrom (fun i => s.hw_breakpoint i &&& 1 == 0) 0 s.hw_breakpoint_max with
  | none => (s, -1)
  | some i =>
    let bpc := bp_bas addr len ||| DBGBCR_EN
    ({ s with
        hw_breakpoint := Function.update s.hw_breakpoint i (addr ||| 1)
        dbgbvr := Function.update s.dbgbvr i (addr &&& 0xfffffffc)
        dbgbcr := Function.update s.dbgbcr i bpc
        bpc0 := if i = 0 then bpc else s.bpc0 }, 0)

/-- `cortexa_clear_hw_bp`: `len` is explicitly discarded (`(void)len`).  Scan
for the first slot whose entry with the live bit masked off (`& ~1`, i.e.
`&&& 0xfffffffe` on the 32-bit entries) equals `addr`; if none return `-1`,
otherwise zero the entry and `DBGBCR[i]`, clearing `bpc0` when `i = 0`, and
return `0`. -/
def cortexa_clear_hw_bp (s : CortexaState) (addr : Nat) (_len : Nat) : CortexaState × Int :=
  match findIdxFrom (fun i => s.hw_breakpoint i &&& 0xfffffffe == addr) 0 s.hw_breakpoint_max with
  | none => (s, -1)
  | some i =>
    ({ s with
        hw_breakpoint := Function.update s.hw_breakpoint i 0
        dbgbcr := Function.update s.dbgbcr i 0
        bpc0 := if i = 0 then 0 else s.bpc0 }, 0)

/-- Number of free slots (entry low bit zero) among indices `i ≤ j < i + fuel`. -/
def freeCountFrom (ent : Nat → Nat) (i : Nat) : Nat → Nat
  | 0 => 0
  | fuel + 1 => (if ent i &&& 1 = 0 then 1 else 0) + freeCountFrom ent (i + 1) fuel

/-- Number of free breakpoint slots of a state. -/
def freeCount (s : CortexaState) : Nat :=
  freeCountFrom s.hw_breakpoint 0 s.hw_breakpoint_max

/-- Iterated `cortexa_set_hw_bp` over a list of (address, length) requests,
collecting the returned status codes. -/
def setMany (s : CortexaState) : List (Nat × Nat) → CortexaState × List Int
  | [] => (s, [])
  | (a, l) :: rest =>
    let out := cortexa_set_hw_bp s a l
    let outs := setMany out.1 rest
    (outs.1, out.2 :: outs.2)

/-! ## Error reporting -/

/-- `cortexa_check_error`: the AHB transport error input models
`ahb && adiv5_dp_error(ahb->dp)` — `none` when `priv->ahb` is NULL, otherwise
the DP error word.  Returns the disjunction with the sticky `mmu_fault` flag
and unconditionally clears `mmu_fault`. -/
def cortexa_check_error (ahb_dp_error : Option Nat) (s : CortexaState) : Bool × CortexaState :=
  ((match ahb_dp_error with
    | some e => e != 0
    | none => false) || s.mmu_fault,
   { s with mmu_fault := false })

/-- State after `n` successive `cortexa_check_error` calls, the `k`-th call
seeing transport error input `errs k`. -/
def checkErrSeq (errs : Nat → Option Nat) (s : CortexaState) : Nat → CortexaState
  | 0 => s
  | n + 1 => (cortexa_check_error (errs n) (checkErrSeq errs s n)).2

/-! ## Address translation -/

/-- `va_to_pa`: `par` is the PAR value read back through r0 after issuing
ATS1CPR.  Sets `mmu_fault` when bit 0 of PAR is set, and returns
`(par & ~0xfff) | (va & 0xfff)` regardless (`~0xfff` is `0xfffff000` on the
32-bit PAR). -/
def va_to_pa (par : Nat) (va : Nat) (s : CortexaState) : Nat × CortexaState :=
  ((par &&& 0xfffff000) ||| (va &&& 0xfff),
   if par &&& 1 ≠ 0 then { s with mmu_fault := true } else s)

/-! ## APB-slow memory read -/

/-- Events observable on the debug APB / DCC during one driver operation. -/
inductive DbgEvent where
  | readDTRTX (value : Nat)
  | readDSCR (value : Nat)
  | writeDSCR (value : Nat)
  | writeDRCR (value : Nat)
  | writeITR (instr : Nat)
  | writeDTRRX (value : Nat)
deriving DecidableEq

def isReadDTRTX : DbgEvent → Bool
  | .readDTRTX _ => true
  | _ => false

/-- Little-endian byte decomposition of one 32-bit word of the `dest32`
buffer, as seen by the `memcpy` through a `uint8_t *` view. -/
def bytesOfWord (w : Nat) : List Nat :=
  [w &&& 0xff, (w >>> 8) &&& 0xff, (w >>> 16) &&& 0xff, (w >>> 24) &&& 0xff]

/-- Events of `write_gpreg(t, regno, val)`: push `val` into DBGDTRRX, then
issue `MRC | DBGDTRRXint | (regno & 0xf) << 12` through the ITR. -/
def write_gpreg_events (regno val : Nat) : List DbgEvent :=
  [.writeDTRRX val, .writeITR (MRC ||| DBGDTRRXint ||| ((regno &&& 0xf) <<< 12))]

/-- `cortexa_slow_mem_read`: `dtrtx k` is the value produced by the `k`-th
DBGDTRTX read of this call (read 0 is the stale one the code discards),
`dscr0` the DBGDSCR value read when entering fast DCC mode and `dscr1` the
value read back for the abort check.  Returns the bytes copied to `dest`,
the updated driver state, and the full APB/DCC event log.  `0xffcfffff` is
the 32-bit `~DBGDSCR_EXTDCCMODE_MASK`. -/
def cortexa_slow_mem_read (dtrtx : Nat → Nat) (dscr0 dscr1 : Nat) (s : CortexaState)
    (src len : Nat) : List Nat × CortexaState × List DbgEvent :=
  let words := (len + (src &&& 3) + 3) / 4
  let dbgdscr := (dscr0 &&& 0xffcfffff) ||| DBGDSCR_EXTDCCMODE_FAST
  let log0 : List DbgEvent :=
    write_gpreg_events 0 (src &&& 0xfffffffc) ++
    [.readDSCR dscr0, .writeDSCR dbgdscr,
     .writeITR 0xecb05e01, .readDTRTX (dtrtx 0)]
  let dest32 : List Nat := (List.range words).map (fun i => dtrtx (i + 1))
  let dest : List Nat := (((dest32.map bytesOfWord).flatten).drop (src &&& 3)).take len
  let log1 : List DbgEvent :=
    log0 ++ dest32.map DbgEvent.readDTRTX ++
    [.writeDSCR ((dbgdscr &&& 0xffcfffff) ||| DBGDSCR_EXTDCCMODE_STALL), .readDSCR dscr1]
  if dscr1 &&& DBGDSCR_SDABORT_L ≠ 0 then
    (dest, { s with mmu_fault := true }, log1 ++ [.writeDRCR DBGDRCR_CSE])
  else
    (dest, s, log1 ++ [.readDTRTX (dtrtx (words + 1))])

/-! ## Register cache facade and snapshot -/

/-- `cortexa_regs_read`: `memcpy(data, &priv->reg_cache, t->regs_size)` —
copying the whole cache struct into an identically laid out buffer is
modelled as a whole-record copy. -/
def cortexa_regs_read (s : CortexaState) : RegCache :=
  s.reg_cache

/-- `cortexa_regs_write`: `memcpy(&priv->reg_cache, data, t->regs_size)`. -/
def cortexa_regs_write (s : CortexaState) (data : RegCache) : CortexaState :=
  { s with reg_cache := data }

/-- Raw values delivered by the core during the halt snapshot: `gp i` is the
value `read_gpreg(t, i)` returns for `i < 15`; `pc` is the value read through
r0 after `mov r0, pc`; `cpsr`, `fpscr` likewise through r0; `dLo i`/`dHi i`
are the r0/r1 halves transferred by `vmov r0, r1, d[i]`. -/
structure SnapshotEnv where
  gp : Fin 15 → Nat
  pc : Nat
  cpsr : Nat
  fpscr : Nat
  dLo : Fin 16 → Nat
  dHi : Fin 16 → Nat

/-- `cortexa_regs_read_internal`: take the full snapshot (r0..r14, raw PC
into `r[15]`, CPSR, FPSCR, d0..d15), then — as the final statement of the
function — subtract the pipeline offset from `r[15]`: 4 if CPSR bit 5
(Thumb) is set in the just-read CPSR, else 8, with 32-bit wrap-around. -/
def cortexa_regs_read_internal (env : SnapshotEnv) (s : CortexaState) : CortexaState :=
  let snap : RegCache :=
    { r := fun i => if h : (i : Nat) < 15 then env.gp ⟨i, h⟩ else env.pc
      cpsr := env.cpsr
      fpscr := env.fpscr
      d := fun i => (env.dHi i <<< 32) ||| env.dLo i }
  let adj : Nat := if snap.cpsr &&& CPSR_THUMB ≠ 0 then 4 else 8
  let final : RegCache :=
    { snap with r := Function.update snap.r 15 ((snap.r 15 + (2 ^ 32 - adj)) % 2 ^ 32) }
  { s with reg_cache := final }

/-! ## Attach -/

/-- The attach polling loop
`while(!platform_srst_get_val() && !target_halt_wait(t) && --tries)`:
`srst k` is the SRST value seen and `haltw k` the `target_halt_wait` result
at the `k`-th condition evaluation.  Returns the final value of `tries`.
Note the short-circuit order: with SRST asserted the loop exits at once with
`tries` still positive, and `target_halt_wait` is not called. -/
def attachLoop (srst : Nat → Bool) (haltw : Nat → Int) : Nat → Nat → Nat
  | _, 0 => 0
  | k, t + 1 =>
    if srst k then t + 1
    else if haltw k ≠ 0 then t + 1
    else attachLoop srst haltw (k + 1) t

/-- The "clear any stale breakpoints" loop of `cortexa_attach`: for each
`i < n`, zero `DBGBCR(i)` and `hw_breakpoint[i]`. -/
def zeroSlots (s : CortexaState) : Nat → CortexaState
  | 0 => s
  | n + 1 =>
    let s' := zeroSlots s n
    { s' with
        hw_breakpoint := Function.update s'.hw_breakpoint n 0
        dbgbcr := Function.update s'.dbgbcr n 0 }

/-- Result of `cortexa_attach`: return value, final driver state, the DBGDSCR
value written while enabling halting debug, and whether
`platform_srst_set_val(false)` was executed. -/
structure AttachOut where
  ok : Bool
  state : CortexaState
  dscr_written : Nat
  srst_deasserted : Bool

/-- `cortexa_attach`: clear any pending fault (`target_check_error`), enable
halting debug (DSCR |= HDBGEN|ITREN, DCC mode = stall), send a halt request,
run the polling loop with initial `tries = 10` (200 ms delay per retry); if
`tries` reached zero return `false`, otherwise zero all breakpoint slots,
deassert SRST and return `true`. -/
def cortexa_attach (srst : Nat → Bool) (haltw : Nat → Int) (dscr0 : Nat)
    (s : CortexaState) : AttachOut :=
  let s1 := { s with mmu_fault := false }
  let dscr1 := ((dscr0 ||| DBGDSCR_HDBGEN ||| DBGDSCR_ITREN) &&& 0xffcfffff) |||
    DBGDSCR_EXTDCCMODE_STALL
  let t := attachLoop srst haltw 0 10
  if t = 0 then ⟨false, s1, dscr1, false⟩
  else ⟨true, zeroSlots s1 s1.hw_breakpoint_max, dscr1, true⟩

/-! ## Concrete example states used by the witnesses -/

def exCache : RegCache :=
  { r := fun _ => 0, cpsr := 0, fpscr := 0, d := fun _ => 0 }

/-- A freshly attached target with two breakpoint comparators, all free. -/
def exState : CortexaState :=
  { reg_cache := exCache
    hw_breakpoint_max := 2
    hw_breakpoint := fun _ => 0
    bpc0 := 0
    mmu_fault := false
    dbgbvr := fun _ => 0
    dbgbcr := fun _ => 0 }

/-- `exState` with the sticky MMU fault flag raised. -/
def exFaulted : CortexaState :=
  { exState with mmu_fault := true }

/-- Snapshot environment for the witness of the PC-adjustment claim: the
core reports raw PC `0x8004` and a CPSR with the Thumb bit set. -/
def exSnap : SnapshotEnv :=
  { gp := fun _ => 7
    pc := 0x8004
    cpsr := 0x20
    fpscr := 0
    dLo := fun _ => 1
    dHi := fun _ => 2 }

/-! ## Theorems -/

/-- Claim C2: `cortexa_check_error` returns true iff the AHB transport
reports an error or the sticky `mmu_fault` flag is set; it unconditionally
clears `mmu_fault`; and after a single fault, with no transport errors, it
returns true on the first call and false on every subsequent call. -/
theorem cortexa_check_error_spec (e : Option Nat) (s : CortexaState) :
    ((cortexa_check_error e s).1 = true ↔ ((∃ v, e = some v ∧ v ≠ 0) ∨ s.mmu_fault = true)) ∧
    (cortexa_check_error e s).2.mmu_fault = false ∧
    (s.mmu_fault = true → ∀ errs : Nat → Option Nat,
      (∀ k, errs k = none ∨ errs k = some 0) →
      (cortexa_check_error (errs 0) s).1 = true ∧
      ∀ n, 1 ≤ n → (cortexa_check_error (errs n) (checkErrSeq errs s n)).1 = false) := by
  refine ⟨?_, rfl, ?_⟩
  · cases e with
    | none => simp [cortexa_check_error]
    | some v =>
      by_cases hv : v = 0 <;> simp [cortexa_check_error, hv]
  · intro hf errs herrs
    constructor
    · rcases herrs 0 with h | h <;> simp [cortexa_check_error, h, hf]
    · intro n hn
      have hclr : (checkErrSeq errs s n).mmu_fault = false := by
        match n, hn with
        | n + 1, _ => simp [checkErrSeq, cortexa_check_error]
      rcases herrs n with h | h <;> simp [cortexa_check_error, h, hclr]

/-- Witness for C2 at a concrete faulted state with no transport errors. -/
theorem cortexa_check_error_spec_witness :
    (cortexa_check_error none exFaulted).1 = true ∧
    (cortexa_check_error none (checkErrSeq (fun _ => none) exFaulted 1)).1 = false := by
  have h := (cortexa_check_error_spec none exFaulted).2.2 (by decide)
    (fun _ => none) (fun _ => Or.inl rfl)
  exact ⟨h.1, h.2 1 le_rfl⟩

/-- Low 12 bits of the value `va_to_pa` assembles always come from the
virtual address. -/
theorem pa_low_bits (par va : Nat) :
    ((par &&& 0xfffff000) ||| (va &&& 0xfff)) &&& 0xfff = va &&& 0xfff := by
  apply Nat.eq_of_testBit_eq
  intro i
  have h12 : (0xfff : Nat) = 2 ^ 12 - 1 := by norm_num
  have h20 : (0xfffff000 : Nat) = (2 ^ 20 - 1) <<< 12 := by
    rw [Nat.shiftLeft_eq]
    norm_num
  simp only [Nat.testBit_and, Nat.testBit_or, h12, h20, Nat.testBit_shiftLeft,
    Nat.testBit_two_pow_sub_one]
  by_cases h : i < 12
  · have h' : ¬ (12 ≤ i) := by omega
    simp [h, h']
  · simp [h]

/-- Claim C6: `va_to_pa` returns `(PAR & ~0xfff) | (va & 0xfff)` regardless
of the fault bit, so the low 12 bits of the result equal those of `va`; bit 0
of PAR set raises the sticky `mmu_fault` flag, bit 0 clear leaves the state
untouched. -/
theorem va_to_pa_spec (par va : Nat) (s : CortexaState) :
    (va_to_pa par va s).1 = ((par &&& 0xfffff000) ||| (va &&& 0xfff)) ∧
    (va_to_pa par va s).1 &&& 0xfff = va &&& 0xfff ∧
    (par &&& 1 ≠ 0 → (va_to_pa par va s).2 = { s with mmu_fault := true }) ∧
    (par &&& 1 = 0 → (va_to_pa par va s).2 = s) := by
  refine ⟨rfl, pa_low_bits par va, ?_, ?_⟩
  · intro h
    have hv : (va_to_pa par va s).2 =
        if par &&& 1 ≠ 0 then { s with mmu_fault := true } else s := rfl
    rw [hv, if_pos h]
  · intro h
    have hv : (va_to_pa par va s).2 =
        if par &&& 1 ≠ 0 then { s with mmu_fault := true } else s := rfl
    rw [hv, if_neg (fun hc => hc h)]

/-- Witness for C6: a faulting and a clean PAR value at a concrete state. -/
theorem va_to_pa_spec_witness :
    (va_to_pa 0x12345001 0xabc exState).2 = { exState with mmu_fault := true } ∧
    (va_to_pa 0x12345000 0xabc exState).2 = exState :=
  ⟨(va_to_pa_spec 0x12345001 0xabc exState).2.2.1 (by decide),
   (va_to_pa_spec 0x12345000 0xabc exState).2.2.2 (by decide)⟩

/-- Claim C8: `regs_read`/`regs_write` copy the whole register cache, so
writing back what was just read leaves the cache unchanged and a subsequent
read reproduces the same buffer. -/
theorem cortexa_regs_roundtrip (s : CortexaState) (buf : RegCache) :
    cortexa_regs_read (cortexa_regs_write s buf) = buf ∧
    cortexa_regs_read (cortexa_regs_write s (cortexa_regs_read s)) = cortexa_regs_read s :=
  ⟨rfl, rfl⟩

/-- Claim C7: in the halt snapshot, the cached `r[15]` is the raw PC minus 4
when bit 5 of the freshly read CPSR is set and minus 8 otherwise, while every
other snapshot field keeps the raw value delivered by the core. -/
theorem cortexa_regs_read_internal_spec (env : SnapshotEnv) (s : CortexaState)
    (hpc : env.pc < 2 ^ 32) (h8 : 8 ≤ env.pc) :
    ((cortexa_regs_read_internal env s).reg_cache.r 15 =
      env.pc - (if env.cpsr &&& CPSR_THUMB ≠ 0 then 4 else 8)) ∧
    (∀ i : Fin 15, (cortexa_regs_read_internal env s).reg_cache.r i.castSucc = env.gp i) ∧
    (cortexa_regs_read_internal env s).reg_cache.cpsr = env.cpsr ∧
    (cortexa_regs_read_internal env s).reg_cache.fpscr = env.fpscr ∧
    (∀ i : Fin 16, (cortexa_regs_read_internal env s).reg_cache.d i =
      (env.dHi i <<< 32) ||| env.dLo i) := by
  have hfun : (cortexa_regs_read_internal env s).reg_cache.r =
      Function.update (fun j : Fin 16 => if h : (j : Nat) < 15 then env.gp ⟨j, h⟩ else env.pc)
        15 ((env.pc + (2 ^ 32 - (if env.cpsr &&& CPSR_THUMB ≠ 0 then 4 else 8))) % 2 ^ 32) :=
    rfl
  refine ⟨?_, ?_, rfl, rfl, fun i => rfl⟩
  · rw [hfun, Function.update_same]
    by_cases h : env.cpsr &&& CPSR_THUMB ≠ 0
    · rw [if_pos h]
      omega
    · rw [if_neg h]
      omega
  · intro i
    have hne : (i.castSucc : Fin 16) ≠ 15 := by
      intro hcontra
      have hv : ((i.castSucc : Fin 16) : Nat) = ((15 : Fin 16) : Nat) := congrArg Fin.val hcontra
      rw [Fin.coe_castSucc] at hv
      have h15 : ((15 : Fin 16) : Nat) = 15 := rfl
      have hlt := i.isLt
      omega
    rw [hfun, Function.update_noteq hne]
    have hi : ((i.castSucc : Fin 16) : Nat) < 15 := by
      rw [Fin.coe_castSucc]
      exact i.isLt
    rw [dif_pos hi]
    rfl

/-- Witness for C7: Thumb-mode snapshot with raw PC `0x8004`. -/
theorem cortexa_regs_read_internal_spec_witness :
    (cortexa_regs_read_internal exSnap exState).reg_cache.r 15 =
      exSnap.pc - (if exSnap.cpsr &&& CPSR_THUMB ≠ 0 then 4 else 8) :=
  (cortexa_regs_read_internal_spec exSnap exState (by decide) (by decide)).1

/-! ## Linear-scan and slot-count lemmas -/

theorem findIdxFrom_none_iff (p : Nat → Bool) :
    ∀ fuel i, findIdxFrom p i fuel = none ↔ ∀ j, i ≤ j → j < i + fuel → p j = false := by
  intro fuel
  induction fuel with
  | zero =>
    intro i
    constructor
    · intro _ j h1 h2
      omega
    · intro _
      rfl
  | succ n ih =>
    intro i
    simp only [findIdxFrom]
    by_cases h : p i = true
    · rw [if_pos h]
      constructor
      · intro hc
        exact Option.noConfusion hc
      · intro hall
        have hfalse := hall i le_rfl (by omega)
        rw [h] at hfalse
        exact absurd hfalse (by simp)
    · have hf : p i = false := by
        cases hpi : p i
        · rfl
        · exact absurd hpi h
      rw [if_neg h, ih (i + 1)]
      constructor
      · intro hall j h1 h2
        by_cases hji : j = i
        · rw [hji]
          exact hf
        · exact hall j (by omega) (by omega)
      · intro hall j h1 h2
        exact hall j (by omega) (by omega)

theorem findIdxFrom_some_spec (p : Nat → Bool) :
    ∀ fuel i j, findIdxFrom p i fuel = some j →
      p j = true ∧ i ≤ j ∧ j < i + fuel ∧ ∀ m, i ≤ m → m < j → p m = false := by
  intro fuel
  induction fuel with
  | zero =>
    intro i j h
    exact Option.noConfusion h
  | succ n ih =>
    intro i j h
    simp only [findIdxFrom] at h
    by_cases hp : p i = true
    · rw [if_pos hp] at h
      have hj : i = j := by injection h
      subst hj
      exact ⟨hp, le_rfl, by omega, fun m h1 h2 => by omega⟩
    · rw [if_neg hp] at h
      obtain ⟨h1, h2, h3, h4⟩ := ih (i + 1) j h
      have hf : p i = false := by
        cases hpi : p i
        · rfl
        · exact absurd hpi hp
      refine ⟨h1, by omega, by omega, fun m hm1 hm2 => ?_⟩
      by_cases hmi : m = i
      · rw [hmi]
        exact hf
      · exact h4 m (by omega) hm2

theorem findIdxFrom_eq_some (p : Nat → Bool) :
    ∀ fuel i j, i ≤ j → j < i + fuel → p j = true →
      (∀ m, i ≤ m → m < j → p m = false) → findIdxFrom p i fuel = some j := by
  intro fuel
  induction fuel with
  | zero =>
    intro i j h1 h2 _ _
    omega
  | succ n ih =>
    intro i j h1 h2 hp hmin
    simp only [findIdxFrom]
    by_cases hji : j = i
    · subst hji
      rw [if_pos hp]
    · have hf : p i = false := hmin i le_rfl (by omega)
      rw [if_neg (by simp [hf])]
      exact ih (i + 1) j (by omega) (by omega) hp (fun m a b => hmin m (by omega) b)

theorem freeCountFrom_eq_zero_iff (ent : Nat → Nat) :
    ∀ fuel i, freeCountFrom ent i fuel = 0 ↔
      ∀ j, i ≤ j → j < i + fuel → ent j &&& 1 ≠ 0 := by
  intro fuel
  induction fuel with
  | zero =>
    intro i
    constructor
    · intro _ j h1 h2
      omega
    · intro _
      rfl
  | succ n ih =>
    intro i
    simp only [freeCountFrom]
    by_cases h : ent i &&& 1 = 0
    · rw [if_pos h]
      constructor
      · intro hc
        omega
      · intro hall
        exact absurd h (hall i le_rfl (by omega))
    · rw [if_neg h, Nat.zero_add, ih (i + 1)]
      constructor
      · intro hall j h1 h2
        by_cases hji : j = i
        · rw [hji]
          exact h
        · exact hall j (by omega) (by omega)
      · intro hall j h1 h2
        exact hall j (by omega) (by omega)

theorem freeCountFrom_congr (ent ent2 : Nat → Nat) :
    ∀ fuel i, (∀ j, i ≤ j → j < i + fuel → ent j = ent2 j) →
      freeCountFrom ent i fuel = freeCountFrom ent2 i fuel := by
  intro fuel
  induction fuel with
  | zero =>
    intro i _
    rfl
  | succ n ih =>
    intro i hagree
    simp only [freeCountFrom]
    rw [hagree i le_rfl (by omega), ih (i + 1) (fun j a b => hagree j (by omega) (by omega))]

theorem freeCountFrom_update (ent : Nat → Nat) (jj v : Nat) (hv : v &&& 1 ≠ 0) :
    ∀ fuel i, i ≤ jj → jj < i + fuel → ent jj &&& 1 = 0 →
      freeCountFrom (Function.update ent jj v) i fuel + 1 = freeCountFrom ent i fuel := by
  intro fuel
  induction fuel with
  | zero =>
    intro i h1 h2 _
    omega
  | succ n ih =>
    intro i h1 h2 hfree
    simp only [freeCountFrom]
    by_cases hij : i = jj
    · subst hij
      rw [Function.update_same, if_neg hv, if_pos hfree]
      have hcong : freeCountFrom (Function.update ent i v) (i + 1) n =
          freeCountFrom ent (i + 1) n :=
        freeCountFrom_congr _ _ n (i + 1)
          (fun j a _ => Function.update_noteq (by omega) v ent)
      omega
    · rw [Function.update_noteq hij v ent]
      have hrec := ih (i + 1) (by omega) (by omega) hfree
      omega

/-- `(a | 1)` always has the low (live) bit set. -/
theorem or_one_busy (a : Nat) : (a ||| 1) &&& 1 ≠ 0 := by
  intro hc
  have hb : ((a ||| 1) &&& 1).testBit 0 = false := by
    rw [hc]
    rfl
  rw [Nat.testBit_and, Nat.testBit_or] at hb
  simp at hb

/-- An odd address is unchanged by `| 1`. -/
theorem or_one_of_odd (addr : Nat) (h : addr % 2 = 1) : addr ||| 1 = addr := by
  apply Nat.eq_of_testBit_eq
  intro i
  rw [Nat.testBit_or]
  cases i with
  | zero => simp [Nat.testBit_zero, h]
  | succ n => simp [Nat.testBit_succ]

/-- Masking with `~1` (i.e. `0xfffffffe`) always clears the low bit, so the
result never equals an odd address. -/
theorem and_mask_ne_odd (e addr : Nat) (hodd : addr % 2 = 1) : e &&& 0xfffffffe ≠ addr := by
  intro hc
  have hb : (e &&& 0xfffffffe).testBit 0 = addr.testBit 0 := by rw [hc]
  rw [Nat.testBit_and] at hb
  have h2 : (0xfffffffe : Nat).testBit 0 = false := by decide
  rw [h2, Bool.and_false] at hb
  rw [Nat.testBit_zero, hodd] at hb
  simp at hb

/-! ## Behaviour of set/clear at a characterized slot (shared helpers) -/

/-- `cortexa_set_hw_bp` at the first free slot `i`. -/
theorem set_hw_bp_eq_of_first_free (s : CortexaState) (addr len i : Nat)
    (hi : i < s.hw_breakpoint_max) (hfree : s.hw_breakpoint i &&& 1 = 0)
    (hmin : ∀ j, j < i → s.hw_breakpoint j &&& 1 ≠ 0) :
    cortexa_set_hw_bp s addr len =
      ({ s with
          hw_breakpoint := Function.update s.hw_breakpoint i (addr ||| 1)
          dbgbvr := Function.update s.dbgbvr i (addr &&& 0xfffffffc)
          dbgbcr := Function.update s.dbgbcr i (bp_bas addr len ||| DBGBCR_EN)
          bpc0 := if i = 0 then bp_bas addr len ||| DBGBCR_EN else s.bpc0 }, 0) := by
  have hfind : findIdxFrom (fun j => s.hw_breakpoint j &&& 1 == 0) 0 s.hw_breakpoint_max =
      some i := by
    apply findIdxFrom_eq_some _ _ 0 i (by omega) (by omega)
    · exact beq_iff_eq.mpr hfree
    · intro m _ hm
      exact beq_eq_false_iff_ne.mpr (hmin m hm)
  simp only [cortexa_set_hw_bp, hfind]

/-- `cortexa_set_hw_bp` when every slot is busy. -/
theorem set_hw_bp_eq_of_full (s : CortexaState) (addr len : Nat)
    (h : freeCount s = 0) :
    cortexa_set_hw_bp s addr len = (s, -1) := by
  have hall := (freeCountFrom_eq_zero_iff s.hw_breakpoint s.hw_breakpoint_max 0).mp h
  have hnone : findIdxFrom (fun j => s.hw_breakpoint j &&& 1 == 0) 0 s.hw_breakpoint_max =
      none := by
    rw [findIdxFrom_none_iff]
    intro j h1 h2
    exact beq_eq_false_iff_ne.mpr (hall j h1 (by omega))
  simp only [cortexa_set_hw_bp, hnone]

/-- A successful set consumes exactly one free slot. -/
theorem set_hw_bp_success (s : CortexaState) (addr len : Nat) (h : 0 < freeCount s) :
    (cortexa_set_hw_bp s addr len).2 = 0 ∧
    freeCount (cortexa_set_hw_bp s addr len).1 = freeCount s - 1 := by
  rcases hfind : findIdxFrom (fun j => s.hw_breakpoint j &&& 1 == 0) 0 s.hw_breakpoint_max
    with _ | i
  · exfalso
    have hall := (findIdxFrom_none_iff _ s.hw_breakpoint_max 0).mp hfind
    have : freeCount s = 0 := by
      rw [freeCount, freeCountFrom_eq_zero_iff]
      intro j h1 h2
      exact beq_eq_false_iff_ne.mp (hall j h1 (by omega))
    omega
  · obtain ⟨hp, _, hlt, _⟩ := findIdxFrom_some_spec _ _ _ _ hfind
    have hfree : s.hw_breakpoint i &&& 1 = 0 := beq_iff_eq.mp hp
    constructor
    · simp only [cortexa_set_hw_bp, hfind]
    · simp only [cortexa_set_hw_bp, hfind, freeCount]
      have := freeCountFrom_update s.hw_breakpoint i (addr ||| 1) (or_one_busy addr)
        s.hw_breakpoint_max 0 (by omega) (by omega) hfree
      omega

/-- Iterated sets: as long as requests do not outnumber the free slots, every
status is 0 and each set consumes one free slot. -/
theorem setMany_spec :
    ∀ (ps : List (Nat × Nat)) (s : CortexaState), ps.length ≤ freeCount s →
      ((setMany s ps).2.all fun r => r == 0) = true ∧
      freeCount (setMany s ps).1 = freeCount s - ps.length := by
  intro ps
  induction ps with
  | nil =>
    intro s _
    exact ⟨rfl, by simp [setMany]⟩
  | cons p rest ih =>
    intro s h
    have hpos : 0 < freeCount s := by
      simp only [List.length_cons] at h
      omega
    obtain ⟨hz, hc⟩ := set_hw_bp_success s p.1 p.2 hpos
    have hlen : rest.length ≤ freeCount (cortexa_set_hw_bp s p.1 p.2).1 := by
      simp only [List.length_cons] at h
      omega
    obtain ⟨hall, hcount⟩ := ih (cortexa_set_hw_bp s p.1 p.2).1 hlen
    constructor
    · simp only [setMany, List.all_cons, hall, Bool.and_true]
      rw [hz]
      rfl
    · simp only [setMany, hcount, List.length_cons]
      omega

/-- Claim C3: `cortexa_set_hw_bp` scans slots upward for the first free one
(low bit of the stored entry clear); with none free it returns -1 and leaves
all state unchanged; otherwise it stores `addr | 1` there, writes
`DBGBVR[i] = addr & ~3` and `DBGBCR[i] = bas | EN` (mirroring the latter into
`bpc0` when `i = 0`) and returns 0.  Consequently any `k ≤ N` consecutive
sets on a table with `N` free slots all succeed, and with all free slots
consumed the next set fails. -/
theorem cortexa_set_hw_bp_spec (s : CortexaState) (addr len : Nat) :
    (freeCount s = 0 → cortexa_set_hw_bp s addr len = (s, -1)) ∧
    (∀ i, i < s.hw_breakpoint_max → s.hw_breakpoint i &&& 1 = 0 →
      (∀ j, j < i → s.hw_breakpoint j &&& 1 ≠ 0) →
      cortexa_set_hw_bp s addr len =
        ({ s with
            hw_breakpoint := Function.update s.hw_breakpoint i (addr ||| 1)
            dbgbvr := Function.update s.dbgbvr i (addr &&& 0xfffffffc)
            dbgbcr := Function.update s.dbgbcr i (bp_bas addr len ||| DBGBCR_EN)
            bpc0 := if i = 0 then bp_bas addr len ||| DBGBCR_EN else s.bpc0 }, 0)) ∧
    (∀ ps : List (Nat × Nat), ps.length ≤ freeCount s →
      ((setMany s ps).2.all fun r => r == 0) = true ∧
      (ps.length = freeCount s →
        ∀ a l, cortexa_set_hw_bp (setMany s ps).1 a l = ((setMany s ps).1, -1))) := by
  refine ⟨set_hw_bp_eq_of_full s addr len,
    set_hw_bp_eq_of_first_free s addr len, ?_⟩
  intro ps hlen
  obtain ⟨hall, hcount⟩ := setMany_spec ps s hlen
  refine ⟨hall, fun hfull a l => ?_⟩
  apply set_hw_bp_eq_of_full
  omega

/-- Witness for C3: a set on the all-free example state lands in slot 0. -/
theorem cortexa_set_hw_bp_spec_witness :
    cortexa_set_hw_bp exState 0x8000 4 =
      ({ exState with
          hw_breakpoint := Function.update exState.hw_breakpoint 0 (0x8000 ||| 1)
          dbgbvr := Function.update exState.dbgbvr 0 (0x8000 &&& 0xfffffffc)
          dbgbcr := Function.update exState.dbgbcr 0 (bp_bas 0x8000 4 ||| DBGBCR_EN)
          bpc0 := if 0 = 0 then bp_bas 0x8000 4 ||| DBGBCR_EN else exState.bpc0 }, 0) :=
  (cortexa_set_hw_bp_spec exState 0x8000 4).2.1 0 (by decide) (by decide)
    (fun j hj => by omega)

/-- `cortexa_clear_hw_bp` when no slot matches the masked comparison. -/
theorem clear_hw_bp_eq_of_no_match (s : CortexaState) (addr len : Nat)
    (hall : ∀ j, j < s.hw_breakpoint_max → s.hw_breakpoint j &&& 0xfffffffe ≠ addr) :
    cortexa_clear_hw_bp s addr len = (s, -1) := by
  have hnone : findIdxFrom (fun j => s.hw_breakpoint j &&& 0xfffffffe == addr) 0
      s.hw_breakpoint_max = none := by
    rw [findIdxFrom_none_iff]
    intro j h1 h2
    exact beq_eq_false_iff_ne.mpr (hall j (by omega))
  simp only [cortexa_clear_hw_bp, hnone]

/-- `cortexa_clear_hw_bp` at the first matching slot `i`. -/
theorem clear_hw_bp_eq_of_first_match (s : CortexaState) (addr len i : Nat)
    (hi : i < s.hw_breakpoint_max) (hm : s.hw_breakpoint i &&& 0xfffffffe = addr)
    (hmin : ∀ j, j < i → s.hw_breakpoint j &&& 0xfffffffe ≠ addr) :
    cortexa_clear_hw_bp s addr len =
      ({ s with
          hw_breakpoint := Function.update s.hw_breakpoint i 0
          dbgbcr := Function.update s.dbgbcr i 0
          bpc0 := if i = 0 then 0 else s.bpc0 }, 0) := by
  have hfind : findIdxFrom (fun j => s.hw_breakpoint j &&& 0xfffffffe == addr) 0
      s.hw_breakpoint_max = some i := by
    apply findIdxFrom_eq_some _ _ 0 i (by omega) (by omega)
    · exact beq_iff_eq.mpr hm
    · intro m _ hmlt
      exact beq_eq_false_iff_ne.mpr (hmin m hmlt)
  simp only [cortexa_clear_hw_bp, hfind]

/-- Claim C4 (amended): `cortexa_clear_hw_bp` ignores `len` entirely, clears
the first slot whose masked entry equals `addr` (zeroing `DBGBCR[i]` and, for
slot 0, `bpc0`) returning 0, and returns -1 with no state change when no slot
matches.  A second clear of the same address fails provided the address is
nonzero and was stored in exactly one slot (for address 0 the freed slot
itself matches again — see the counterexample). -/
theorem cortexa_clear_hw_bp_spec (s : CortexaState) (addr len : Nat) :
    (∀ len2, cortexa_clear_hw_bp s addr len = cortexa_clear_hw_bp s addr len2) ∧
    ((∀ j, j < s.hw_breakpoint_max → s.hw_breakpoint j &&& 0xfffffffe ≠ addr) →
      cortexa_clear_hw_bp s addr len = (s, -1)) ∧
    (∀ i, i < s.hw_breakpoint_max → s.hw_breakpoint i &&& 0xfffffffe = addr →
      (∀ j, j < i → s.hw_breakpoint j &&& 0xfffffffe ≠ addr) →
      cortexa_clear_hw_bp s addr len =
        ({ s with
            hw_breakpoint := Function.update s.hw_breakpoint i 0
            dbgbcr := Function.update s.dbgbcr i 0
            bpc0 := if i = 0 then 0 else s.bpc0 }, 0)) ∧
    (addr ≠ 0 →
      ∀ i, i < s.hw_breakpoint_max → s.hw_breakpoint i &&& 0xfffffffe = addr →
      (∀ j, j < s.hw_breakpoint_max → s.hw_breakpoint j &&& 0xfffffffe = addr → j = i) →
      (cortexa_clear_hw_bp s addr len).2 = 0 ∧
      ∀ len2, (cortexa_clear_hw_bp (cortexa_clear_hw_bp s addr len).1 addr len2).2 = -1) := by
  refine ⟨fun len2 => rfl, clear_hw_bp_eq_of_no_match s addr len,
    clear_hw_bp_eq_of_first_match s addr len, ?_⟩
  intro hnz i hi hm huniq
  have hmin : ∀ j, j < i → s.hw_breakpoint j &&& 0xfffffffe ≠ addr := by
    intro j hj hcontra
    have := huniq j (by omega) hcontra
    omega
  have h1 := clear_hw_bp_eq_of_first_match s addr len i hi hm hmin
  rw [h1]
  refine ⟨rfl, fun len2 => ?_⟩
  have hall : ∀ j, j < s.hw_breakpoint_max →
      Function.update s.hw_breakpoint i 0 j &&& 0xfffffffe ≠ addr := by
    intro j hj
    by_cases hji : j = i
    · subst hji
      rw [Function.update_same, Nat.zero_and]
      exact fun hc => hnz hc.symm
    · rw [Function.update_noteq hji 0 s.hw_breakpoint]
      intro hcontra
      exact hji (huniq j hj hcontra)
  have h2 := clear_hw_bp_eq_of_no_match
    ({ s with
        hw_breakpoint := Function.update s.hw_breakpoint i 0
        dbgbcr := Function.update s.dbgbcr i 0
        bpc0 := if i = 0 then 0 else s.bpc0 }) addr len2 hall
  rw [h2]

/-- Counterexample to C4 as stated: set a breakpoint at address 0 (storing
entry 1), clear it, and clear the same previously-set address again — the
second clear matches the freed slot (entry 0 masked equals address 0) and
returns 0, not the failure -1 the claim predicts. -/
theorem cortexa_clear_hw_bp_second_clear_zero_cex :
    (cortexa_clear_hw_bp (cortexa_clear_hw_bp (cortexa_set_hw_bp exState 0 4).1 0 4).1 0 4).2
      = 0 ∧
    ¬ ((cortexa_clear_hw_bp (cortexa_clear_hw_bp
        (cortexa_set_hw_bp exState 0 4).1 0 4).1 0 4).2 = -1) := by
  constructor
  · decide
  · decide

/-- Witness for C4: a breakpoint set at the even nonzero address 8 clears
once with status 0 and a second clear (with a different `len`) fails. -/
theorem cortexa_clear_hw_bp_spec_witness :
    (cortexa_clear_hw_bp (cortexa_set_hw_bp exState 8 4).1 8 4).2 = 0 ∧
    (cortexa_clear_hw_bp (cortexa_clear_hw_bp
      (cortexa_set_hw_bp exState 8 4).1 8 4).1 8 2).2 = -1 := by
  have h := (cortexa_clear_hw_bp_spec (cortexa_set_hw_bp exState 8 4).1 8 4).2.2.2
    (by decide) 0 (by decide) (by decide) (by decide)
  exact ⟨h.1, h.2 2⟩

/-- Claim C9: setting a breakpoint at an odd address stores `addr | 1 = addr`
and succeeds, but no clear with that odd address can ever match (the masked
entry is always even), so the slot can only be freed by clearing with
`addr & ~1`. -/
theorem set_hw_bp_odd_addr_spec (s : CortexaState) (addr len : Nat) (hodd : addr % 2 = 1) :
    (∀ i, i < s.hw_breakpoint_max → s.hw_breakpoint i &&& 1 = 0 →
      (∀ j, j < i → s.hw_breakpoint j &&& 1 ≠ 0) →
      (cortexa_set_hw_bp s addr len).2 = 0 ∧
      (cortexa_set_hw_bp s addr len).1.hw_breakpoint i = addr) ∧
    (∀ s2 : CortexaState, ∀ len2, cortexa_clear_hw_bp s2 addr len2 = (s2, -1)) ∧
    (∀ s2 : CortexaState, ∀ a len2 i, i < s2.hw_breakpoint_max →
      s2.hw_breakpoint i = addr →
      (cortexa_clear_hw_bp s2 a len2).1.hw_breakpoint i ≠ s2.hw_breakpoint i →
      a = addr &&& 0xfffffffe) := by
  refine ⟨?_, ?_, ?_⟩
  · intro i hi hfree hmin
    rw [set_hw_bp_eq_of_first_free s addr len i hi hfree hmin]
    refine ⟨rfl, ?_⟩
    show Function.update s.hw_breakpoint i (addr ||| 1) i = addr
    rw [Function.update_same]
    exact or_one_of_odd addr hodd
  · intro s2 len2
    exact clear_hw_bp_eq_of_no_match s2 addr len2
      (fun j _ => and_mask_ne_odd (s2.hw_breakpoint j) addr hodd)
  · intro s2 a len2 i hi hstore hchange
    rcases hfind : findIdxFrom (fun j => s2.hw_breakpoint j &&& 0xfffffffe == a) 0
        s2.hw_breakpoint_max with _ | j
    · exfalso
      apply hchange
      simp only [cortexa_clear_hw_bp, hfind]
    · obtain ⟨hp, _, _, _⟩ := findIdxFrom_some_spec _ _ _ _ hfind
      by_cases hji : j = i
      · subst hji
        have := beq_iff_eq.mp hp
        rw [hstore] at this
        exact this.symm ▸ rfl
      · exfalso
        apply hchange
        simp only [cortexa_clear_hw_bp, hfind]
        exact Function.update_noteq (fun hc => hji hc.symm) 0 s2.hw_breakpoint

/-- Witness for C9 at odd address 5 on the all-free example state. -/
theorem set_hw_bp_odd_addr_spec_witness :
    (cortexa_set_hw_bp exState 5 4).1.hw_breakpoint 0 = 5 ∧
    cortexa_clear_hw_bp (cortexa_set_hw_bp exState 5 4).1 5 4 =
      ((cortexa_set_hw_bp exState 5 4).1, -1) := by
  have h := set_hw_bp_odd_addr_spec exState 5 4 (by decide)
  exact ⟨(h.1 0 (by decide) (by decide) (fun j hj => by omega)).2,
    h.2.1 (cortexa_set_hw_bp exState 5 4).1 4⟩

/-- Claim C10: when some slot stores 0 (and no slot stores the entry 1 a
breakpoint at address 0 would leave), `cortexa_clear_hw_bp(0, len)` returns
success: the first zero slot matches address 0 after masking, so the call
re-zeroes its (already zero) table entry, zeroes `DBGBCR[i]`, and clears
`bpc0` when that slot is slot 0. -/
theorem clear_hw_bp_zero_spurious_success (s : CortexaState) (len i : Nat)
    (hi : i < s.hw_breakpoint_max) (h0 : s.hw_breakpoint i = 0)
    (hmin : ∀ j, j < i → s.hw_breakpoint j ≠ 0)
    (hnever : ∀ j, j < s.hw_breakpoint_max → s.hw_breakpoint j &&& 0xfffffffe = 0 →
      s.hw_breakpoint j = 0) :
    cortexa_clear_hw_bp s 0 len =
      ({ s with
          dbgbcr := Function.update s.dbgbcr i 0
          bpc0 := if i = 0 then 0 else s.bpc0 }, 0) := by
  have hm : s.hw_breakpoint i &&& 0xfffffffe = 0 := by
    rw [h0, Nat.zero_and]
  have hminmask : ∀ j, j < i → s.hw_breakpoint j &&& 0xfffffffe ≠ 0 := by
    intro j hj hcontra
    exact hmin j hj (hnever j (by omega) hcontra)
  have h1 := clear_hw_bp_eq_of_first_match s 0 len i hi hm hminmask
  rw [h1]
  have hid : Function.update s.hw_breakpoint i 0 = s.hw_breakpoint := by
    rw [← h0]
    exact Function.update_eq_self i s.hw_breakpoint
  rw [hid]

/-- Witness for C10: on the freshly attached all-free example state, clearing
address 0 succeeds even though no breakpoint was ever set. -/
theorem clear_hw_bp_zero_spurious_success_witness :
    cortexa_clear_hw_bp exState 0 4 =
      ({ exState with
          dbgbcr := Function.update exState.dbgbcr 0 0
          bpc0 := if 0 = 0 then 0 else exState.bpc0 }, 0) :=
  clear_hw_bp_zero_spurious_success exState 4 0 (by decide) (by decide)
    (fun j hj => by omega) (by decide)

/-! ## Attach -/

/-- The polling loop leaves `tries = 0` exactly when every one of its `t`
condition evaluations saw SRST deasserted and `target_halt_wait` returning
0 (any other observation exits early with `tries` still positive). -/
theorem attachLoop_eq_zero_iff (srst : Nat → Bool) (haltw : Nat → Int) :
    ∀ t k, attachLoop srst haltw k t = 0 ↔
      ∀ j, j < t → (srst (k + j) = false ∧ haltw (k + j) = 0) := by
  intro t
  induction t with
  | zero =>
    intro k
    constructor
    · intro _ j hj
      omega
    · intro _
      rfl
  | succ n ih =>
    intro k
    simp only [attachLoop]
    by_cases hs : srst k = true
    · rw [if_pos hs]
      constructor
      · intro hc
        omega
      · intro hall
        have := (hall 0 (by omega)).1
        rw [Nat.add_zero] at this
        rw [hs] at this
        exact absurd this (by simp)
    · have hs' : srst k = false := by
        cases hv : srst k
        · rfl
        · exact absurd hv hs
      rw [if_neg hs]
      by_cases hh : haltw k ≠ 0
      · rw [if_pos hh]
        constructor
        · intro hc
          omega
        · intro hall
          have := (hall 0 (by omega)).2
          rw [Nat.add_zero] at this
          exact absurd this hh
      · have hh' : haltw k = 0 := by
          by_contra hc
          exact hh hc
        rw [if_neg hh, ih (k + 1)]
        constructor
        · intro hall j hj
          match j with
          | 0 =>
            rw [Nat.add_zero]
            exact ⟨hs', hh'⟩
          | m + 1 =>
            have := hall m (by omega)
            rw [show k + 1 + m = k + (m + 1) by omega] at this
            exact this
        · intro hall j hj
          have := hall (j + 1) (by omega)
          rw [show k + (j + 1) = k + 1 + j by omega] at this
          exact this

/-- The clear-stale-breakpoints loop zeroes exactly the first `n` table
entries and `DBGBCR` registers and touches nothing else. -/
theorem zeroSlots_spec (s : CortexaState) :
    ∀ n, (∀ i, i < n → (zeroSlots s n).hw_breakpoint i = 0 ∧ (zeroSlots s n).dbgbcr i = 0) ∧
      (zeroSlots s n).hw_breakpoint_max = s.hw_breakpoint_max ∧
      (zeroSlots s n).bpc0 = s.bpc0 ∧
      (zeroSlots s n).mmu_fault = s.mmu_fault := by
  intro n
  induction n with
  | zero =>
    exact ⟨fun i hi => by omega, rfl, rfl, rfl⟩
  | succ m ih =>
    obtain ⟨hzeros, hmax, hbpc, hmmu⟩ := ih
    refine ⟨?_, hmax, hbpc, hmmu⟩
    intro i hi
    simp only [zeroSlots]
    by_cases him : i = m
    · subst him
      rw [Function.update_same, Function.update_same]
      exact ⟨rfl, rfl⟩
    · rw [Function.update_noteq him, Function.update_noteq him]
      exact hzeros i (by omega)

/-- Claim C1 (amended): `cortexa_attach` sends a halt request and polls for
up to ten retries with 200 ms delays.  It returns `false` exactly when every
one of the ten polls saw the system reset line deasserted and the target not
halted; in particular an asserted reset line exits the loop early onto the
success path.  On the success path it zeroes every hardware-breakpoint slot
(both the `hw_breakpoint` table entries and the DBGBCR registers) and then
deasserts system reset before returning `true`. -/
theorem cortexa_attach_spec (srst : Nat → Bool) (haltw : Nat → Int) (dscr0 : Nat)
    (s : CortexaState) :
    ((cortexa_attach srst haltw dscr0 s).ok = false ↔
      ∀ j, j < 10 → (srst j = false ∧ haltw j = 0)) ∧
    ((cortexa_attach srst haltw dscr0 s).ok = true →
      (∀ i, i < s.hw_breakpoint_max →
        (cortexa_attach srst haltw dscr0 s).state.hw_breakpoint i = 0 ∧
        (cortexa_attach srst haltw dscr0 s).state.dbgbcr i = 0) ∧
      (cortexa_attach srst haltw dscr0 s).srst_deasserted = true) := by
  have hloop := attachLoop_eq_zero_iff srst haltw 10 0
  simp only [Nat.zero_add] at hloop
  by_cases hz : attachLoop srst haltw 0 10 = 0
  · have hout : cortexa_attach srst haltw dscr0 s =
        ⟨false, { s with mmu_fault := false },
          ((dscr0 ||| DBGDSCR_HDBGEN ||| DBGDSCR_ITREN) &&& 0xffcfffff) |||
            DBGDSCR_EXTDCCMODE_STALL, false⟩ := by
      simp only [cortexa_attach, hz]
      rfl
    rw [hout]
    constructor
    · simp only [true_iff]
      exact hloop.mp hz
    · intro hc
      exact absurd hc (by simp)
  · have hout : cortexa_attach srst haltw dscr0 s =
        ⟨true, zeroSlots { s with mmu_fault := false } s.hw_breakpoint_max,
          ((dscr0 ||| DBGDSCR_HDBGEN ||| DBGDSCR_ITREN) &&& 0xffcfffff) |||
            DBGDSCR_EXTDCCMODE_STALL, true⟩ := by
      simp only [cortexa_attach]
      rw [if_neg hz]
    rw [hout]
    constructor
    · simp only [Bool.true_eq_false, false_iff]
      intro hall
      exact hz (hloop.mpr hall)
    · intro _
      exact ⟨fun i hi => (zeroSlots_spec _ s.hw_breakpoint_max).1 i hi, rfl⟩

/-- Counterexample to C1 as stated: with the system reset line held asserted
throughout (and the target never halting), `cortexa_attach` exits the poll
loop immediately onto the success path and returns `true`, not the failure
the claim predicts for an asserted reset line. -/
theorem cortexa_attach_srst_asserted_cex :
    (cortexa_attach (fun _ => true) (fun _ => 0) 0 exState).ok = true ∧
    (cortexa_attach (fun _ => true) (fun _ => 0) 0 exState).srst_deasserted = true := by
  constructor
  · decide
  · decide

/-- Witness for C1: a target that halts on the first poll attaches with the
breakpoint table cleared and SRST deasserted; a target that never halts with
SRST deasserted yields `ok = false`. -/
theorem cortexa_attach_spec_witness :
    ((cortexa_attach (fun _ => false) (fun _ => 5) 0 exState).state.hw_breakpoint 0 = 0 ∧
      (cortexa_attach (fun _ => false) (fun _ => 5) 0 exState).srst_deasserted = true) ∧
    (cortexa_attach (fun _ => false) (fun _ => 0) 0 exState).ok = false := by
  refine ⟨?_, ?_⟩
  · have h := (cortexa_attach_spec (fun _ => false) (fun _ => 5) 0 exState).2 (by decide)
    exact ⟨(h.1 0 (by decide)).1, h.2⟩
  · exact (cortexa_attach_spec (fun _ => false) (fun _ => 0) 0 exState).1.mpr
      (fun j hj => ⟨rfl, rfl⟩)

/-! ## APB-slow read -/

/-- Byte `k` of the flattened little-endian byte view of a word list is byte
`k % 4` of word `k / 4` — the index arithmetic of the `memcpy` from the
`uint32_t dest32[]` buffer through a `uint8_t *` view. -/
theorem flatten_bytesOfWord_getElem (ws : List Nat) :
    ∀ k, ((ws.map bytesOfWord).flatten)[k]? =
      (ws[k / 4]?).map (fun w => (w >>> (8 * (k % 4))) &&& 0xff) := by
  induction ws with
  | nil =>
    intro k
    simp
  | cons w ws ih =>
    intro k
    simp only [List.map_cons, List.flatten_cons]
    by_cases hk : k < 4
    · rw [List.getElem?_append_left (by simp [bytesOfWord]; omega)]
      have hk4 : k / 4 = 0 := by omega
      have hkm : k % 4 = k := by omega
      rw [hk4, hkm]
      interval_cases k <;> simp [bytesOfWord]
    · have hlen : (bytesOfWord w).length = 4 := rfl
      rw [List.getElem?_append_right (by rw [hlen]; omega), hlen, ih (k - 4)]
      have h1 : (k - 4) / 4 + 1 = k / 4 := by omega
      have h2 : (k - 4) % 4 = k % 4 := by omega
      rw [h2, ← h1, List.getElem?_cons_succ]

/-- Claim C5: the APB-slow read discards the first DBGDTRTX value, drains
`(len + (src & 3) + 3) / 4` further words, copies `len` bytes out of that
word buffer starting at byte offset `src & 3`, and after restoring stall-DCC
mode either (sticky data abort set) writes DRCR.CSE as its final action and
raises `mmu_fault` while still returning normally, or (no abort) leaves the
state untouched and performs one final drain read of DBGDTRTX. -/
theorem cortexa_slow_mem_read_spec (dtrtx : Nat → Nat) (dscr0 dscr1 : Nat)
    (s : CortexaState) (src len : Nat) :
    ((cortexa_slow_mem_read dtrtx dscr0 dscr1 s src len).2.2.countP isReadDTRTX =
      1 + (len + (src &&& 3) + 3) / 4 +
        (if dscr1 &&& DBGDSCR_SDABORT_L ≠ 0 then 0 else 1)) ∧
    (∀ j, j < len →
      (cortexa_slow_mem_read dtrtx dscr0 dscr1 s src len).1[j]? =
        some ((dtrtx (((src &&& 3) + j) / 4 + 1) >>>
          (8 * (((src &&& 3) + j) % 4))) &&& 0xff)) ∧
    (dscr1 &&& DBGDSCR_SDABORT_L ≠ 0 →
      (cortexa_slow_mem_read dtrtx dscr0 dscr1 s src len).2.1 =
        { s with mmu_fault := true } ∧
      (cortexa_slow_mem_read dtrtx dscr0 dscr1 s src len).2.2.getLast? =
        some (DbgEvent.writeDRCR DBGDRCR_CSE)) ∧
    (dscr1 &&& DBGDSCR_SDABORT_L = 0 →
      (cortexa_slow_mem_read dtrtx dscr0 dscr1 s src len).2.1 = s ∧
      (cortexa_slow_mem_read dtrtx dscr0 dscr1 s src len).2.2.getLast? =
        some (DbgEvent.readDTRTX (dtrtx ((len + (src &&& 3) + 3) / 4 + 1)))) := by
  have ha : src &&& 3 = src % 4 := by
    have h3 : (3 : Nat) = 2 ^ 2 - 1 := by norm_num
    rw [h3, Nat.and_pow_two_sub_one_eq_mod]
  have hcnt : ∀ n, List.countP (isReadDTRTX ∘ DbgEvent.readDTRTX ∘ fun i => dtrtx (i + 1))
      (List.range n) = n := by
    intro n
    have h : List.countP (isReadDTRTX ∘ DbgEvent.readDTRTX ∘ fun i => dtrtx (i + 1))
        (List.range n) = (List.range n).length :=
      List.countP_eq_length.mpr (fun a _ => rfl)
    rw [h, List.length_range]
  refine ⟨?_, ?_, ?_, ?_⟩
  · by_cases h : dscr1 &&& DBGDSCR_SDABORT_L ≠ 0
    · simp [cortexa_slow_mem_read, h, write_gpreg_events, isReadDTRTX,
        List.countP_cons, List.countP_append, List.countP_map, Function.comp, hcnt]
      omega
    · have h0 : dscr1 &&& DBGDSCR_SDABORT_L = 0 := not_not.mp h
      simp [cortexa_slow_mem_read, h0, write_gpreg_events, isReadDTRTX,
        List.countP_cons, List.countP_append, List.countP_map, Function.comp, hcnt]
      omega
  · intro j hj
    have h4 : src &&& 3 < 4 := by
      rw [ha]
      exact Nat.mod_lt _ (by norm_num)
    have hwords : ((src &&& 3) + j) / 4 < (len + (src &&& 3) + 3) / 4 := by
      omega
    have hdest : (cortexa_slow_mem_read dtrtx dscr0 dscr1 s src len).1 =
        (((((List.range ((len + (src &&& 3) + 3) / 4)).map (fun i => dtrtx (i + 1))).map
          bytesOfWord).flatten).drop (src &&& 3)).take len := by
      simp only [cortexa_slow_mem_read]
      by_cases h : dscr1 &&& DBGDSCR_SDABORT_L ≠ 0
      · rw [if_pos h]
      · rw [if_neg h]
    rw [hdest, List.getElem?_take_of_lt hj, List.getElem?_drop,
      flatten_bytesOfWord_getElem, List.getElem?_map, List.getElem?_range hwords]
    simp
  · intro h
    constructor
    · have hv : (cortexa_slow_mem_read dtrtx dscr0 dscr1 s src len).2.1 =
          if dscr1 &&& DBGDSCR_SDABORT_L ≠ 0 then { s with mmu_fault := true } else s := by
        simp only [cortexa_slow_mem_read]
        by_cases hb : dscr1 &&& DBGDSCR_SDABORT_L ≠ 0
        · rw [if_pos hb, if_pos hb]
        · rw [if_neg hb, if_neg hb]
      rw [hv, if_pos h]
    · simp only [cortexa_slow_mem_read]
      rw [if_pos h]
      exact List.getLast?_concat _
  · intro h
    have h' : ¬ dscr1 &&& DBGDSCR_SDABORT_L ≠ 0 := fun hc => hc h
    constructor
    · have hv : (cortexa_slow_mem_read dtrtx dscr0 dscr1 s src len).2.1 =
          if dscr1 &&& DBGDSCR_SDABORT_L ≠ 0 then { s with mmu_fault := true } else s := by
        simp only [cortexa_slow_mem_read]
        by_cases hb : dscr1 &&& DBGDSCR_SDABORT_L ≠ 0
        · rw [if_pos hb, if_pos hb]
        · rw [if_neg hb, if_neg hb]
      rw [hv, if_neg h']
    · simp only [cortexa_slow_mem_read]
      rw [if_neg h']
      exact List.getLast?_concat _

/-- Witness for C5: a 3-byte read at the misaligned address 2 from a
concrete DCC stream, plus the abort branch raising `mmu_fault`. -/
theorem cortexa_slow_mem_read_spec_witness :
    (cortexa_slow_mem_read (fun k => k + 0x10) 0 0 exState 2 3).1[0]? =
      some (((fun k : Nat => k + 0x10) (((2 &&& 3) + 0) / 4 + 1) >>>
        (8 * (((2 &&& 3) + 0) % 4))) &&& 0xff) ∧
    (cortexa_slow_mem_read (fun k => k + 0x10) 0 0x40 exState 2 3).2.1 =
      { exState with mmu_fault := true } :=
  ⟨(cortexa_slow_mem_read_spec (fun k => k + 0x10) 0 0 exState 2 3).2.1 0 (by decide),
   ((cortexa_slow_mem_read_spec (fun k => k + 0x10) 0 0x40 exState 2 3).2.2.1 (by decide)).1⟩

end Cortexa
